import Mathlib

/-!
# The `up local` command of the operator SDK

A shallow embedding of
`vendor/github.com/operator-framework/operator-sdk/commands/operator-sdk/cmd/up/local.go`.

* The package-level flag variables (`kubeConfig`, `operatorFlags`, `namespace`, `ldFlags`)
  are the record `Flags`, passed explicitly.
* Calls that leave the file (the Go standard library, `projutil`, `manager`, `proxy`,
  `ansibleOperator`, the operating system) are either modelled directly from their documented
  behaviour (`strings.Split`, `filepath.Join`) or their outcome is an explicit input
  (`os.Stat`, `user.Current`, `projutil.GetOperatorType`, `projutil.MustInProjectRoot`, ...).
* `log.Fatal`/`log.Fatalf` end the process; every call site is a constructor of `Fatal`.
* The child of `upLocal` is started with `dc.Env` after `os/exec` has removed duplicate keys
  (`dedupEnv`, as in current Go releases on Unix); `upLocalChildEnv` is that environment.
* The two goroutines of `upLocal` are a step function over an explicit schedule.
-/

namespace UpLocal

/-! ## Go standard library -/

/-- Go's `error` values, identified by their message. `Option GoError` is an `error` that may be
`nil`. -/
abbrev GoError := String

/-- Go's `strings.Count(s, sep)` for a one-byte separator: the number of occurrences of `sep`. -/
def stringsCount : List Char → Char → Nat
  | [], _ => 0
  | c :: cs, sep => if c = sep then stringsCount cs sep + 1 else stringsCount cs sep

/-- Go's `strings.Index(s, sep)` for a one-byte separator; `none` is Go's `-1`. -/
def stringsIndex : List Char → Char → Option Nat
  | [], _ => none
  | c :: cs, sep => if c = sep then some 0 else (stringsIndex cs sep).map (· + 1)

/-- The loop of `strings.genSplit(s, sep, 0, -1)`: at most `n` more cuts, each at the first
occurrence of `sep` in what is left (`a[i] = s[:m]; s = s[m+len(sep):]`), then the rest
(`a[i] = s`). -/
def genSplitLoop (sep : Char) : Nat → List Char → List (List Char)
  | 0, s => [s]
  | n + 1, s =>
    match stringsIndex s sep with
    | none => [s]
    | some m => s.take m :: genSplitLoop sep n (s.drop (m + 1))

/-- Go's `strings.Split(s, sep)` for a one-byte separator `sep` (the source calls it with `" "`):
`genSplit` with `n = Count(s, sep) + 1` result slots, hence `Count(s, sep)` cuts. A space is a
single byte that occurs in no multi-byte UTF-8 sequence, so cutting by character and cutting by
byte agree. -/
def stringsSplit (s : String) (sep : Char) : List String :=
  (genSplitLoop sep (stringsCount s.data sep) s.data).map String.mk

/-- Go's `strings.Join(elems, sep)` on character lists. -/
def stringsJoin (sep : List Char) : List (List Char) → List Char
  | [] => []
  | [e] => e
  | e :: es => e ++ sep ++ stringsJoin sep es

/-- The element pass of `filepath.Clean` (Unix): `out` holds the elements written so far, last
one first. Empty and `.` elements are skipped; `..` removes the last written element when there
is one that is not itself `..`, is written when the path is not rooted, and is dropped at the
root; any other element is written. -/
def cleanElems (rooted : Bool) : List (List Char) → List (List Char) → List (List Char)
  | out, [] => out.reverse
  | out, e :: es =>
    if e = [] ∨ e = ['.'] then cleanElems rooted out es
    else if e = ['.', '.'] then
      match out with
      | top :: rest =>
        if top = ['.', '.'] then cleanElems rooted (e :: out) es
        else cleanElems rooted rest es
      | [] => if rooted then cleanElems rooted [] es else cleanElems rooted [e] es
    else cleanElems rooted (e :: out) es

/-- Go's `filepath.Clean(path)` on Unix (no volume name, separator `/`). -/
def filepathClean (path : List Char) : List Char :=
  if path = [] then ['.']
  else
    let rooted : Bool := path.head? = some '/'
    let body := stringsJoin ['/'] (cleanElems rooted [] (path.splitOn '/'))
    let out := if rooted then '/' :: body else body
    if out = [] then ['.'] else out

/-- Go's `filepath.Join(elem...)` on Unix: leading empty elements are ignored, the rest is joined with
`/` and cleaned; with no non-empty element the result is the empty string. -/
def filepathJoin : List String → String
  | [] => ""
  | e :: es =>
    if e = "" then filepathJoin es
    else String.mk (filepathClean (stringsJoin ['/'] ((e :: es).map String.data)))

/-- Go's `fmt.Sprintf("%v=%v", key, value)` on two strings. -/
def sprintfKeyValue (key value : String) : String := key ++ "=" ++ value

/-! ## Flags, constants and fatal exits -/

/-- The package-level variables bound to the command's flags (lines 63-68). `nameSpace` is the
source's `namespace`. -/
structure Flags where
  kubeConfig : String
  operatorFlags : String
  nameSpace : String
  ldFlags : String
  deriving DecidableEq

/-- Constants of the packages `scaffold`, `ansibleScaffold` and `k8sutil`, which the file only
refers to by name. -/
structure Consts where
  ManagerDir : String
  CmdFile : String
  KubeConfigEnvVar : String
  WatchNamespaceEnvVar : String
  WatchesYamlFile : String
  deriving DecidableEq

/-- The constant `defaultConfigPath` (line 71). -/
def defaultConfigPath : String := ".kube/config"

/-- The places at which the process is ended by a fatal log call. -/
inductive Fatal where
  /-- Line 96: `failed to determine user's home dir`. -/
  | homeDir (err : GoError)
  /-- Line 103: `failed to find the kubeconfig file`. -/
  | kubeConfigNotFound (path : String)
  /-- Line 86: `failed to determine operator type`. -/
  | operatorType
  /-- Inside `projutil.MustInProjectRoot` (line 81). -/
  | notInProjectRoot
  /-- Line 124: `failed to terminate the operator`. -/
  | terminate (err : GoError)
  /-- Line 134: `failed to run operator locally`. -/
  | runLocally (err : GoError)
  /-- Inside `config.GetConfigOrDie` (line 144). -/
  | getConfig
  /-- Line 146: `manager.New` failed. -/
  | managerNew (err : GoError)
  /-- Line 160: `error starting proxy`. -/
  | proxyStart (err : GoError)
  /-- Line 169: the value received from `done` is an error. -/
  | done (err : GoError)
  deriving DecidableEq

/-- Either a fatal exit or a value. -/
inductive Must (α : Type) where
  | fatal (f : Fatal)
  | ok (a : α)
  deriving DecidableEq

/-! ## `mustKubeConfig` -/

/-- What `os.IsNotExist` says about a non-nil error of `os.Stat`. -/
inductive StatErr where
  /-- An error for which `os.IsNotExist(err)` holds (`ENOENT`). -/
  | notExist
  /-- Any other error (`ENOTDIR`, `EACCES`, ...): `os.IsNotExist(err)` is false. -/
  | other
  deriving DecidableEq

/-- The state of one path of the file system, as far as `os.Stat` can tell. -/
inductive PathState where
  /-- The file exists and `os.Stat` succeeds. -/
  | present
  /-- There is no such file and `os.Stat` reports `ENOENT`. -/
  | absent
  /-- There is no such file and `os.Stat` fails with another error, such as `ENOTDIR` for a
  path that runs through a regular file, or `EACCES` on a parent directory. -/
  | absentOtherErr
  /-- The file exists but `os.Stat` fails (`EACCES` on a parent directory). -/
  | presentOtherErr
  deriving DecidableEq

/-- Whether a file exists at the path. -/
def PathState.onDisk : PathState → Bool
  | .present => true
  | .presentOtherErr => true
  | .absent => false
  | .absentOtherErr => false

/-- The error result of `os.Stat` (`none` is `nil`). -/
def osStat : PathState → Option StatErr
  | .present => none
  | .absent => some .notExist
  | .absentOtherErr => some .other
  | .presentOtherErr => some .other

/-- The function `mustKubeConfig` (lines 91-105). `kubeConfig` is the value of the global on entry,
`usr` the result of `user.Current()` (its `HomeDir`, or the error), `fs` the file system. The
result is the value of the global `kubeConfig` on return. -/
def mustKubeConfig (kubeConfig : String) (usr : Except GoError String)
    (fs : String → PathState) : Must String :=
  let resolved : Must String :=
    if kubeConfig.length = 0 then
      match usr with
      | .error err => .fatal (.homeDir err)
      | .ok homeDir => .ok (filepathJoin [homeDir, defaultConfigPath])
    else .ok kubeConfig
  match resolved with
  | .fatal f => .fatal f
  | .ok kubeConfig =>
    match osStat (fs kubeConfig) with
    | some .notExist => .fatal (.kubeConfigNotFound kubeConfig)
    | some .other => .ok kubeConfig
    | none => .ok kubeConfig

/-! ## `upLocalFunc` -/

/-- The values of `projutil.GetOperatorType()`: the two constants the switch names, and any
other value. -/
inductive OperatorType where
  | go
  | ansible
  | other (name : String)
  deriving DecidableEq

/-- What `upLocalFunc` finds outside the file. -/
structure World where
  /-- Result of `user.Current()`: the home directory or an error. -/
  usr : Except GoError String
  /-- The file system. -/
  fs : String → PathState
  /-- Result of `projutil.GetOperatorType()`. -/
  operatorType : OperatorType
  /-- Whether `projutil.MustInProjectRoot()` returns (`true`) or ends the process. -/
  inProjectRoot : Bool

/-- The observable steps of `upLocalFunc`. -/
inductive Event where
  | info (msg : String)
  | getOperatorType
  | mustInProjectRoot
  /-- Call of `upLocal()` with the globals as they are then. -/
  | upLocal (flags : Flags)
  /-- Call of `upLocalAnsible()` with the globals as they are then. -/
  | upLocalAnsible (flags : Flags)
  | fatal (f : Fatal)
  deriving DecidableEq

/-- The function `upLocalFunc` (lines 74-88), up to the call of a strategy. -/
def upLocalFunc (flags : Flags) (w : World) : List Event :=
  match mustKubeConfig flags.kubeConfig w.usr w.fs with
  | .fatal f => [.fatal f]
  | .ok kubeConfig =>
    let flags := { flags with kubeConfig := kubeConfig }
    .info "Running the operator locally." :: .getOperatorType ::
      match w.operatorType with
      | .go =>
        .mustInProjectRoot ::
          (if w.inProjectRoot then [.upLocal flags] else [.fatal .notInProjectRoot])
      | .ansible => [.upLocalAnsible flags]
      | .other _ => [.fatal .operatorType]

/-- Whether an event is the call of one of the two strategies. -/
def Event.isStrategy : Event → Bool
  | .upLocal _ => true
  | .upLocalAnsible _ => true
  | _ => false

/-- Whether an event is a fatal exit. -/
def Event.isFatal : Event → Bool
  | .fatal _ => true
  | _ => false

/-- The strategy calls of a run, in order. -/
def strategies (trace : List Event) : List Event := trace.filter Event.isStrategy

/-! ## `upLocal`: the command that is run -/

/-- Where an output stream of the child goes. -/
inductive Stream where
  /-- The zero value of the field: the stream is discarded. -/
  | discard
  | osStdout
  | osStderr
  deriving DecidableEq

/-- The fields of `exec.Cmd` that `upLocal` sets. `args` are the arguments after the command
name. -/
structure Cmd where
  name : String
  args : List String
  env : List String
  stdout : Stream
  stderr : Stream
  deriving DecidableEq

/-- The argument list built in lines 108-116. -/
def upLocalArgs (flags : Flags) (c : Consts) : List String :=
  let args := ["run"]
  let args := if flags.ldFlags ≠ "" then args ++ ["-ldflags", flags.ldFlags] else args
  let args := args ++ [filepathJoin [c.ManagerDir, c.CmdFile]]
  if flags.operatorFlags ≠ "" then
    let extraArgs := stringsSplit flags.operatorFlags ' '
    args ++ extraArgs
  else args

/-- The command `dc` as it is when `dc.Run()` is called (lines 117 and 128-131); `environ` is
`os.Environ()`. -/
def upLocalCmd (flags : Flags) (c : Consts) (environ : List String) : Cmd :=
  let dc : Cmd :=
    { name := "go", args := upLocalArgs flags c, env := [], stdout := .discard,
      stderr := .discard }
  let dc := { dc with stdout := .osStdout }
  let dc := { dc with stderr := .osStderr }
  let dc := { dc with env := environ ++ [sprintfKeyValue c.KubeConfigEnvVar flags.kubeConfig] }
  let dc := { dc with env := dc.env ++ [sprintfKeyValue c.WatchNamespaceEnvVar flags.nameSpace] }
  dc

/-- The NUL character. -/
def nul : Char := Char.ofNat 0

/-- The key of an environment entry as `dedupEnv` of `os/exec` takes it: the text before the
first `=`, where an `=` at the very start counts as part of the key
(`i = strings.Index(kv[1:], "=") + 1`); `none` when the entry has no `=`. -/
def envKey (kv : String) : Option String :=
  match stringsIndex kv.data '=' with
  | none => none
  | some 0 =>
    match stringsIndex (kv.data.drop 1) '=' with
    | none => some ""
    | some j => some (String.mk (kv.data.take (j + 1)))
  | some (i + 1) => some (String.mk (kv.data.take (i + 1)))

/-- The loop of `dedupEnv` in `os/exec`, over the entries from the last to the first: an entry
with a NUL character sets the error and is skipped, an entry without `=` is kept unless it is
empty, an entry whose key was seen already is skipped, any other entry is kept and its key
recorded. `out` is the result so far, in the order of the environment. -/
def dedupEnvLoop : List String → List String → List String → Bool → List String × Bool
  | [], _, out, err => (out, err)
  | kv :: rest, saw, out, err =>
    if nul ∈ kv.data then dedupEnvLoop rest saw out true
    else
      match envKey kv with
      | none =>
        if kv ≠ "" then dedupEnvLoop rest saw (kv :: out) err
        else dedupEnvLoop rest saw out err
      | some k =>
        if k ∈ saw then dedupEnvLoop rest saw out err
        else dedupEnvLoop rest (k :: saw) (kv :: out) err

/-- The function `dedupEnv` of `os/exec` (Unix, keys are case-sensitive): of the entries with the
same key only the last one remains; the flag is the error `environment variable contains NUL`. -/
def dedupEnv (env : List String) : List String × Bool :=
  dedupEnvLoop env.reverse [] [] false

/-- The environment `dc.Run()` starts the child with: `dc.Env`, which is not nil here, after
`dedupEnv`; `none` when the start fails because an entry holds a NUL character. -/
def cmdEnviron (dc : Cmd) : Option (List String) :=
  if (dedupEnv dc.env).2 then none else some (dedupEnv dc.env).1

/-- The environment of the child that `upLocal` runs. -/
def upLocalChildEnv (flags : Flags) (c : Consts) (environ : List String) :
    Option (List String) :=
  cmdEnviron (upLocalCmd flags c environ)

/-- The number of arguments that precede the operator flags: `run`, the linker pair when there
is one, and the entry point. -/
def entryPointEnd (flags : Flags) : Nat :=
  1 + (if flags.ldFlags ≠ "" then 2 else 0) + 1

/-! ## `upLocal`: the two goroutines -/

/-- Where the goroutine that runs `upLocal` stands (lines 118-135). -/
inductive MainPc where
  /-- Before line 118, `c := make(chan os.Signal)`. -/
  | makeChan
  /-- Before line 119, `signal.Notify`. -/
  | notify
  /-- Before line 120, the `go` statement. -/
  | spawn
  /-- Before lines 128-131, the assignments to `dc`. -/
  | configure
  /-- Before line 132: `dc.Run()` has not started the child yet. -/
  | run
  /-- Inside `dc.Run()`: the child is started, the goroutine waits for its end. -/
  | waiting
  /-- Before line 133, with the result of `dc.Run()`. -/
  | checkErr (err : Option GoError)
  /-- The function has returned. -/
  | returned
  deriving DecidableEq

/-- Where the goroutine of lines 120-127 stands. -/
inductive HandlerPc where
  /-- The `go` statement has not run. -/
  | notSpawned
  /-- Created, not yet at the receive of line 121. -/
  | spawned
  /-- Blocked in `<-c` (line 121). -/
  | receiving
  /-- A signal was received; before line 122, `dc.Process.Kill()`. -/
  | kill
  /-- Before line 123, with the result of `Kill`. -/
  | checkErr (err : Option GoError)
  deriving DecidableEq

/-- The child process. -/
inductive Child where
  | notStarted
  | running
  /-- Ended; `err` is what `dc.Run()` returns for it (`nil` for exit status 0). -/
  | ended (err : Option GoError)
  deriving DecidableEq

/-- How the orchestrator's process, or the call of `upLocal`, ended. -/
inductive Exit where
  /-- The call `os.Exit(0)` at line 126. -/
  | exit0
  /-- A fatal log call (exit status 1). -/
  | fatal (f : Fatal)
  /-- Run-time panic: `dc.Process` was nil at line 122. -/
  | nilProcess
  /-- Ended by the signal itself, no handler being installed. -/
  | bySignal
  /-- Function `upLocal` returned to its caller (line 136). -/
  | returned
  deriving DecidableEq

/-- State of a run of `upLocal` from line 118 on. -/
structure UpState where
  main : MainPc
  handler : HandlerPc
  /-- Whether `signal.Notify` has been called. -/
  notified : Bool
  /-- Whether `dc.Process` is non-nil. -/
  processSet : Bool
  child : Child
  exit : Option Exit
  deriving DecidableEq

/-- What happens next: one of the goroutines takes a step, or the environment acts. -/
inductive Sched where
  /-- The main goroutine runs its next statement; `startErr` is the result of starting the child
  and is used at line 132 only. -/
  | main (startErr : Option GoError)
  /-- The handler goroutine runs its next statement; `killErr` is the result of `Kill` and is
  used at line 122 only. -/
  | handler (killErr : Option GoError)
  /-- The operating system delivers an interrupt or termination signal. -/
  | signal
  /-- The child ends by itself; `err` is what `dc.Run()` will return for it. -/
  | childEnds (err : Option GoError)
  deriving DecidableEq

/-- The error `dc.Run()` returns for a child ended by `Kill`. -/
def killedErr : GoError := "signal: killed"

/-- State at line 118. -/
def upLocalInit : UpState :=
  { main := .makeChan, handler := .notSpawned, notified := false, processSet := false,
    child := .notStarted, exit := none }

/-- One statement of the main goroutine. -/
def stepMain (startErr : Option GoError) (s : UpState) : UpState :=
  match s.main with
  | .makeChan => { s with main := .notify }
  | .notify => { s with main := .spawn, notified := true }
  | .spawn => { s with main := .configure, handler := .spawned }
  | .configure => { s with main := .run }
  | .run =>
    match startErr with
    | some err => { s with main := .checkErr (some err) }
    | none => { s with main := .waiting, processSet := true, child := .running }
  | .waiting =>
    match s.child with
    | .ended err => { s with main := .checkErr err }
    | _ => s
  | .checkErr (some err) => { s with exit := some (.fatal (.runLocally err)) }
  | .checkErr none => { s with main := .returned, exit := some .returned }
  | .returned => s

/-- One statement of the handler goroutine. -/
def stepHandler (killErr : Option GoError) (s : UpState) : UpState :=
  match s.handler with
  | .notSpawned => s
  | .spawned => { s with handler := .receiving }
  | .receiving => s
  | .kill =>
    if s.processSet then
      match killErr with
      | some err => { s with handler := .checkErr (some err) }
      | none =>
        { s with
          handler := .checkErr none
          child := if s.child = .running then .ended (some killedErr) else s.child }
    else { s with exit := some .nilProcess }
  | .checkErr (some err) => { s with exit := some (.fatal (.terminate err)) }
  | .checkErr none => { s with exit := some .exit0 }

/-- Delivery of an interrupt or termination signal. Before `signal.Notify` the default action
ends the process. Afterwards package `signal` offers the value to `c` without blocking: it is
received when the handler is blocked in `<-c` and dropped otherwise (`c` has no buffer). -/
def stepSignal (s : UpState) : UpState :=
  if s.notified then
    match s.handler with
    | .receiving => { s with handler := .kill }
    | _ => s
  else { s with exit := some .bySignal }

/-- The child ends by itself. -/
def stepChild (err : Option GoError) (s : UpState) : UpState :=
  match s.child with
  | .running => { s with child := .ended err }
  | _ => s

/-- One step; nothing happens once the process has ended. -/
def step (s : UpState) (e : Sched) : UpState :=
  match s.exit with
  | some _ => s
  | none =>
    match e with
    | .main startErr => stepMain startErr s
    | .handler killErr => stepHandler killErr s
    | .signal => stepSignal s
    | .childEnds err => stepChild err s

/-- A run under a schedule. -/
def run (s : UpState) (sched : List Sched) : UpState := sched.foldl step s

/-! ## `upLocalAnsible` -/

/-- What `upLocalAnsible` finds outside the file. -/
structure AnsibleWorld where
  /-- Whether `config.GetConfigOrDie()` returns (`true`) or ends the process. -/
  getConfigOk : Bool
  /-- The error result of `manager.New`. -/
  managerNew : Option GoError
  /-- The error result of `proxy.Run`. -/
  proxyRun : Option GoError
  /-- The values the proxy and the operator deliver on `done`, in the order of delivery. -/
  delivered : List (Option GoError)
  deriving DecidableEq

/-- The observable steps of `upLocalAnsible`. -/
inductive AnsibleEvent where
  | setenv (key value : String)
  | setLogger
  | getConfig
  | managerNew (nameSpace : String)
  | printVersion
  | info (msg : String)
  | makeDone
  | proxyRun (address : String) (port : Nat)
  /-- The statement `go ansibleOperator.Run(done, mgr, watches, period)`, period in seconds. -/
  | operatorRun (watches : String) (period : Nat)
  /-- The receive `err = <-done` got `v`. -/
  | received (v : Option GoError)
  /-- The receive `<-done` never gets a value. -/
  | blocked
  | fatal (f : Fatal)
  deriving DecidableEq

/-- The function `upLocalAnsible` (lines 138-172). -/
def upLocalAnsible (flags : Flags) (c : Consts) (w : AnsibleWorld) : List AnsibleEvent :=
  .setenv c.KubeConfigEnvVar flags.kubeConfig :: .setLogger :: .getConfig ::
    if w.getConfigOk then
      .managerNew flags.nameSpace ::
        match w.managerNew with
        | some err => [.fatal (.managerNew err)]
        | none =>
          .printVersion :: .info ("watching namespace: " ++ flags.nameSpace) :: .makeDone ::
            .proxyRun "localhost" 8888 ::
              match w.proxyRun with
              | some err => [.fatal (.proxyStart err)]
              | none =>
                .operatorRun ("./" ++ c.WatchesYamlFile) 60 ::
                  match w.delivered with
                  | [] => [.blocked]
                  | some err :: _ => [.received (some err), .fatal (.done err)]
                  | none :: _ => [.received none, .info "Exiting."]
    else [.fatal .getConfig]

/-- Whether an event is the start of the reconciliation loop. -/
def AnsibleEvent.isOperatorRun : AnsibleEvent → Bool
  | .operatorRun _ _ => true
  | _ => false

/-- How a run of `upLocalAnsible` ends. -/
inductive AnsibleOutcome where
  /-- The function returned after logging `Exiting.`. -/
  | exiting
  | fatal (f : Fatal)
  /-- The function waits for `done` for ever. -/
  | blocked
  deriving DecidableEq

/-- The outcome of a run: its last event. -/
def ansibleOutcome (trace : List AnsibleEvent) : Option AnsibleOutcome :=
  match trace.getLast? with
  | some (.info "Exiting.") => some .exiting
  | some (.fatal f) => some (.fatal f)
  | some .blocked => some .blocked
  | _ => none

/-! ## Reference resolver and example inputs -/

/-- The kubeconfig resolver as the specification words it: the path is the explicit one when
that is not empty and the home directory joined with `.kube/config` otherwise; the resolver
fails with the not-found error when `existsOnDisk` denies the path and returns the path when it
holds. -/
def resolveReference (explicitPath home : String) (existsOnDisk : String → Bool) : Must String :=
  let p := if explicitPath ≠ "" then explicitPath else filepathJoin [home, defaultConfigPath]
  if existsOnDisk p then .ok p else .fatal (.kubeConfigNotFound p)

/-- The flags at their command-line defaults (lines 55-58). -/
def flagsDefault : Flags :=
  { kubeConfig := "", operatorFlags := "", nameSpace := "default", ldFlags := "" }

/-- Example constants. -/
def constsExample : Consts :=
  { ManagerDir := "cmd/manager", CmdFile := "main.go", KubeConfigEnvVar := "KUBECONFIG",
    WatchNamespaceEnvVar := "WATCH_NAMESPACE", WatchesYamlFile := "watches.yaml" }

/-- A file system with the regular files `/etc/passwd` and `/home/u/.kube/config`. A path below
`/etc/passwd` names no file, and `os.Stat` fails on it with `ENOTDIR`. -/
def fsExample (p : String) : PathState :=
  if p = "/etc/passwd" ∨ p = "/home/u/.kube/config" then .present
  else if "/etc/passwd/".data.isPrefixOf p.data then .absentOtherErr
  else .absent

/-- A Go project, with the command started outside the project root. -/
def worldOutsideRoot : World :=
  { usr := .ok "/home/u", fs := fsExample, operatorType := .go, inProjectRoot := false }

/-- A Go project, with the command started in the project root. -/
def worldGo : World :=
  { usr := .ok "/home/u", fs := fsExample, operatorType := .go, inProjectRoot := true }

/-- An Ansible project. -/
def worldAnsible : World :=
  { usr := .ok "/home/u", fs := fsExample, operatorType := .ansible, inProjectRoot := true }

/-- The run of `upLocal` up to the point at which the child is running, the handler is blocked in
`<-c` and the main goroutine waits inside `dc.Run()`. -/
def stateChildRunning : UpState :=
  run upLocalInit [.main none, .main none, .main none, .handler none, .main none, .main none]

/-- The run of `upLocal` up to the point at which the handler is blocked in `<-c` while the main
goroutine has not reached `dc.Run()` yet. -/
def stateBeforeRun : UpState :=
  run upLocalInit [.main none, .main none, .main none, .handler none]

/-- The run of `upLocal` up to the point at which the child is running while the handler
goroutine, created at line 120, has not yet reached the receive of line 121. -/
def stateHandlerNotReady : UpState :=
  run upLocalInit [.main none, .main none, .main none, .main none, .main none]

/-- Example constants with the names the operator SDK gives the two environment variables. -/
def constsSdk : Consts :=
  { ManagerDir := "cmd/manager", CmdFile := "main.go", KubeConfigEnvVar := "KUBERNETES_CONFIG",
    WatchNamespaceEnvVar := "WATCH_NAMESPACE", WatchesYamlFile := "watches.yaml" }

/-- An inherited environment that already sets the kubeconfig variable. -/
def environWithKubeConfig : List String := ["PATH=/usr/bin", "KUBERNETES_CONFIG=/old/config"]

/-- An inherited environment that sets neither of the two variables. -/
def environPlain : List String := ["PATH=/usr/bin", "HOME=/home/u"]

/-- The steps of `upLocalAnsible` up to and including the start of the reconciliation loop. -/
def ansibleStartup (flags : Flags) (c : Consts) : List AnsibleEvent :=
  [.setenv c.KubeConfigEnvVar flags.kubeConfig, .setLogger, .getConfig,
    .managerNew flags.nameSpace, .printVersion,
    .info ("watching namespace: " ++ flags.nameSpace), .makeDone, .proxyRun "localhost" 8888,
    .operatorRun ("./" ++ c.WatchesYamlFile) 60]

/-! ## Facts about the library functions -/

theorem stringsCount_eq_count (s : List Char) (sep : Char) : stringsCount s sep = s.count sep := by
  induction s with
  | nil => rfl
  | cons c cs ih =>
    by_cases h : c = sep
    · simp [stringsCount, h, ih]
    · simp [stringsCount, h, ih, List.count_cons]

theorem genSplitLoop_cons_sep (sep : Char) (n : Nat) (cs : List Char) :
    genSplitLoop sep (n + 1) (sep :: cs) = [] :: genSplitLoop sep n cs := by
  simp [genSplitLoop, stringsIndex]

theorem genSplitLoop_cons_other (sep c : Char) (h : c ≠ sep) (n : Nat) (cs : List Char) :
    genSplitLoop sep n (c :: cs) = List.modifyHead (List.cons c) (genSplitLoop sep n cs) := by
  cases n with
  | zero => simp [genSplitLoop]
  | succ k =>
    cases hi : stringsIndex cs sep with
    | none => simp [genSplitLoop, stringsIndex, h, hi]
    | some m => simp [genSplitLoop, stringsIndex, h, hi]

theorem genSplitLoop_eq_splitOn (sep : Char) (s : List Char) :
    ∀ n, stringsCount s sep ≤ n → genSplitLoop sep n s = s.splitOn sep := by
  induction s with
  | nil =>
    intro n _
    cases n <;> simp [genSplitLoop, stringsIndex, List.splitOn, List.splitOnP_nil]
  | cons c cs ih =>
    intro n hn
    by_cases h : c = sep
    · subst h
      simp only [stringsCount, if_true] at hn
      obtain ⟨k, rfl⟩ : ∃ k, n = k + 1 := ⟨n - 1, by omega⟩
      rw [genSplitLoop_cons_sep, ih k (by omega)]
      simp [List.splitOn, List.splitOnP_cons]
    · simp only [stringsCount, if_neg h] at hn
      rw [genSplitLoop_cons_other sep c h, ih n hn]
      simp [List.splitOn, List.splitOnP_cons, h]

theorem stringsSplit_eq_splitOn (s : String) (sep : Char) :
    stringsSplit s sep = (s.data.splitOn sep).map String.mk := by
  unfold stringsSplit
  rw [genSplitLoop_eq_splitOn sep s.data _ (Nat.le_refl _)]

theorem length_splitOn_eq (sep : Char) (s : List Char) :
    (s.splitOn sep).length = s.count sep + 1 := by
  induction s with
  | nil => simp [List.splitOn, List.splitOnP_nil]
  | cons c cs ih =>
    by_cases h : c = sep
    · subst h
      simp only [List.splitOn] at ih ⊢
      simp [List.splitOnP_cons, ih]
    · simp only [List.splitOn] at ih ⊢
      have hne := List.splitOnP_ne_nil (fun x => x == sep) cs
      cases hs : List.splitOnP (fun x => x == sep) cs with
      | nil => exact absurd hs hne
      | cons a as =>
        rw [hs] at ih
        simp [List.splitOnP_cons, h, hs, List.count_cons] at ih ⊢
        omega

theorem intercalate_go_data (sep : String) (l : List String) (acc : String) :
    (String.intercalate.go acc sep l).data
      = acc.data ++ (l.map (fun e => sep.data ++ e.data)).flatten := by
  induction l generalizing acc with
  | nil => simp [String.intercalate.go]
  | cons a as ih => simp [String.intercalate.go, ih, String.append, List.append_assoc]

theorem intercalate_data (sep : String) (l : List String) :
    (String.intercalate sep l).data = sep.data.intercalate (l.map String.data) := by
  cases l with
  | nil => rfl
  | cons a as =>
    simp only [String.intercalate, intercalate_go_data]
    induction as generalizing a with
    | nil => simp [List.intercalate]
    | cons b bs ih =>
      have := ih b
      simp [List.intercalate, List.intersperse] at this ⊢
      rw [this]

theorem intercalate_stringsSplit (s : String) :
    " ".intercalate (stringsSplit s ' ') = s := by
  have h : (" ".intercalate (stringsSplit s ' ')).data = s.data := by
    rw [intercalate_data, stringsSplit_eq_splitOn]
    simp only [List.map_map]
    have : (String.data ∘ String.mk) = id := by funext x; rfl
    rw [this, List.map_id]
    exact List.intercalate_splitOn s.data ' '
  cases hs : " ".intercalate (stringsSplit s ' ') with
  | mk d => rw [hs] at h; cases s; simp_all

theorem filepathClean_ne_nil (path : List Char) : filepathClean path ≠ [] := by
  unfold filepathClean
  by_cases h : path = []
  · simp [h]
  · simp only [h, if_false]
    split
    · simp
    · split <;> simp_all

theorem filepathJoin_ne_empty (elems : List String) (h : ∃ e ∈ elems, e ≠ "") :
    filepathJoin elems ≠ "" := by
  induction elems with
  | nil => simp at h
  | cons e es ih =>
    by_cases he : e = ""
    · subst he
      simp only [filepathJoin, if_true]
      apply ih
      obtain ⟨x, hx, hne⟩ := h
      simp only [List.mem_cons] at hx
      rcases hx with rfl | hx
      · exact absurd rfl hne
      · exact ⟨x, hx, hne⟩
    · simp only [filepathJoin, if_neg he]
      intro hc
      have := congrArg String.data hc
      exact filepathClean_ne_nil _ this

theorem length_eq_zero_iff (s : String) : s.length = 0 ↔ s = "" := by
  cases s with
  | mk d =>
    simp only [String.length]
    constructor
    · intro h
      have : d = [] := List.length_eq_zero.mp h
      subst this; rfl
    · intro h
      have := congrArg String.data h
      simp at this
      simp [this]

/-- The path `mustKubeConfig` checks. -/
theorem mustKubeConfig_eq (kubeConfig home : String) (fs : String → PathState) :
    mustKubeConfig kubeConfig (.ok home) fs =
      (let p := if kubeConfig ≠ "" then kubeConfig else filepathJoin [home, defaultConfigPath]
       if osStat (fs p) = some .notExist then .fatal (.kubeConfigNotFound p) else .ok p) := by
  unfold mustKubeConfig
  by_cases h : kubeConfig = ""
  · subst h
    simp only [String.length, List.length_nil, if_true, ne_eq, not_true_eq_false, if_false]
    cases hs : osStat (fs (filepathJoin [home, defaultConfigPath])) with
    | none => simp
    | some e => cases e <;> simp
  · have hl : ¬ kubeConfig.length = 0 := fun hl => h ((length_eq_zero_iff _).mp hl)
    simp only [hl, if_false, ne_eq, h, not_false_eq_true, if_true]
    cases hs : osStat (fs kubeConfig) with
    | none => simp
    | some e => cases e <;> simp

/-! ## `mustKubeConfig` and `upLocalFunc` -/

theorem mustKubeConfig_ok (kubeConfig : String) (usr : Except GoError String)
    (fs : String → PathState) (p : String) (h : mustKubeConfig kubeConfig usr fs = .ok p) :
    p ≠ "" ∧ osStat (fs p) ≠ some .notExist ∧ (kubeConfig ≠ "" → p = kubeConfig) := by
  unfold mustKubeConfig at h
  by_cases hk : kubeConfig = ""
  · subst hk
    simp only [String.length, List.length_nil, if_true] at h
    cases usr with
    | error err => simp at h
    | ok home =>
      simp only at h
      have hne : filepathJoin [home, defaultConfigPath] ≠ "" :=
        filepathJoin_ne_empty _ ⟨defaultConfigPath, by simp, by decide⟩
      cases hs : osStat (fs (filepathJoin [home, defaultConfigPath])) with
      | none =>
        rw [hs] at h
        simp only [Must.ok.injEq] at h
        subst h
        exact ⟨hne, by simp [hs], fun hc => absurd rfl hc⟩
      | some e =>
        rw [hs] at h
        cases e with
        | notExist => simp at h
        | other =>
          simp only [Must.ok.injEq] at h
          subst h
          exact ⟨hne, by simp [hs], fun hc => absurd rfl hc⟩
  · have hl : ¬ kubeConfig.length = 0 := fun hl => hk ((length_eq_zero_iff _).mp hl)
    simp only [hl, if_false] at h
    cases hs : osStat (fs kubeConfig) with
    | none =>
      rw [hs] at h
      simp only [Must.ok.injEq] at h
      subst h
      exact ⟨hk, by simp [hs], fun _ => rfl⟩
    | some e =>
      rw [hs] at h
      cases e with
      | notExist => simp at h
      | other =>
        simp only [Must.ok.injEq] at h
        subst h
        exact ⟨hk, by simp [hs], fun _ => rfl⟩

theorem onDisk_not_notExist (st : PathState) (h : st.onDisk = true) :
    osStat st ≠ some .notExist := by
  cases st <;> simp_all [PathState.onDisk, osStat]

/-- C1, as stated, fails: for the Go kind, with the kubeconfig resolved, `upLocalFunc` started
outside the project root calls no strategy at all, because `projutil.MustInProjectRoot` ends the
process before `upLocal` is reached. -/
theorem upLocalFunc_go_outside_root_calls_nothing :
    mustKubeConfig flagsDefault.kubeConfig worldOutsideRoot.usr worldOutsideRoot.fs
        = .ok "/home/u/.kube/config" ∧
      worldOutsideRoot.operatorType = .go ∧
      strategies (upLocalFunc flagsDefault worldOutsideRoot) = [] ∧
      (upLocalFunc flagsDefault worldOutsideRoot).getLast? = some (.fatal .notInProjectRoot) := by
  decide

/-- C1, amended: once kubeconfig resolution has succeeded, the strategies `upLocalFunc` calls are
exactly `upLocalAnsible` for the Ansible kind, exactly `upLocal` for the Go kind when
`MustInProjectRoot` returns, and none otherwise; the run has a fatal exit exactly in the cases
without a strategy (Go kind outside the project root, any other kind). -/
theorem upLocalFunc_dispatch (flags : Flags) (w : World) (kubeConfig : String)
    (h : mustKubeConfig flags.kubeConfig w.usr w.fs = .ok kubeConfig) :
    strategies (upLocalFunc flags w) =
        (match w.operatorType with
         | .go =>
           if w.inProjectRoot then [.upLocal { flags with kubeConfig := kubeConfig }] else []
         | .ansible => [.upLocalAnsible { flags with kubeConfig := kubeConfig }]
         | .other _ => []) ∧
      (upLocalFunc flags w).filter Event.isFatal =
        (match w.operatorType with
         | .go => if w.inProjectRoot then [] else [.fatal .notInProjectRoot]
         | .ansible => []
         | .other _ => [.fatal .operatorType]) := by
  unfold upLocalFunc strategies
  rw [h]
  cases hk : w.operatorType with
  | go => cases hr : w.inProjectRoot <;> simp [Event.isStrategy, Event.isFatal, hr]
  | ansible => simp [Event.isStrategy, Event.isFatal]
  | other name => simp [Event.isStrategy, Event.isFatal]

/-- Instance: a Go project started in its root. -/
theorem upLocalFunc_dispatch_witness :
    strategies (upLocalFunc flagsDefault worldGo)
        = [.upLocal { flagsDefault with kubeConfig := "/home/u/.kube/config" }] ∧
      (upLocalFunc flagsDefault worldGo).filter Event.isFatal = [] :=
  upLocalFunc_dispatch flagsDefault worldGo "/home/u/.kube/config" (by decide)

/-- C2 fails on the code: the path `/etc/passwd/config` names no file, yet `mustKubeConfig`,
which by its comment at line 90 checks that the kubeconfig file exists, succeeds on it, where the
reference over existence on disk fails with the not-found error. -/
theorem mustKubeConfig_absent_path_accepted :
    (fsExample "/etc/passwd/config").onDisk = false ∧
      mustKubeConfig "/etc/passwd/config" (.ok "/home/u") fsExample = .ok "/etc/passwd/config" ∧
      resolveReference "/etc/passwd/config" "/home/u" (fun p => (fsExample p).onDisk)
        = .fatal (.kubeConfigNotFound "/etc/passwd/config") := by
  decide

/-- What the code of `mustKubeConfig` computes: the reference resolver with "the path exists"
replaced by "`os.Stat` does not report a not-exist error"; in particular it succeeds with the
path unchanged whenever the file exists, an empty explicit path with home `/home/u` resolves to
`/home/u/.kube/config`, and for a non-empty explicit path the result of `user.Current()` plays
no part. -/
theorem mustKubeConfig_refines (explicitPath home : String) (fs : String → PathState) :
    mustKubeConfig explicitPath (.ok home) fs
        = resolveReference explicitPath home
            (fun p => decide (osStat (fs p) ≠ some .notExist)) ∧
      ((fs (if explicitPath ≠ "" then explicitPath
            else filepathJoin [home, defaultConfigPath])).onDisk = true →
        mustKubeConfig explicitPath (.ok home) fs
          = .ok (if explicitPath ≠ "" then explicitPath
                 else filepathJoin [home, defaultConfigPath])) ∧
      filepathJoin ["/home/u", defaultConfigPath] = "/home/u/.kube/config" ∧
      (explicitPath ≠ "" → ∀ usr : Except GoError String,
        mustKubeConfig explicitPath usr fs = mustKubeConfig explicitPath (.ok home) fs) := by
  refine ⟨?_, ?_, by decide, ?_⟩
  · rw [mustKubeConfig_eq]
    unfold resolveReference
    simp only [decide_not, Bool.not_eq_true', decide_eq_false_iff_not]
    split <;> simp_all
  · intro h
    rw [mustKubeConfig_eq]
    simp only [onDisk_not_notExist _ h, if_false]
  · intro hne usr
    have hl : ¬ explicitPath.length = 0 := fun hl => hne ((length_eq_zero_iff _).mp hl)
    simp only [mustKubeConfig, hl, if_false]

/-- Instance: an existing explicit path is returned as it is. -/
theorem mustKubeConfig_refines_witness :
    (fsExample "/etc/passwd").onDisk = true ∧
      mustKubeConfig "/etc/passwd" (.ok "/home/u") fsExample = .ok "/etc/passwd" ∧
      mustKubeConfig "/etc/passwd" (.error "no user") fsExample
        = mustKubeConfig "/etc/passwd" (.ok "/home/u") fsExample :=
  ⟨by decide, (mustKubeConfig_refines "/etc/passwd" "/home/u" fsExample).2.1 (by decide),
    (mustKubeConfig_refines "/etc/passwd" "/home/u" fsExample).2.2.2 (by decide) _⟩

/-- C3 fails on the code: with `--kubeconfig /etc/passwd/config` in an Ansible project
`mustKubeConfig` returns, and the strategy `upLocalAnsible` is reached although no file exists at
the kubeconfig path in effect. -/
theorem upLocalFunc_reaches_strategy_without_file :
    Event.upLocalAnsible { flagsDefault with kubeConfig := "/etc/passwd/config" }
        ∈ upLocalFunc { flagsDefault with kubeConfig := "/etc/passwd/config" } worldAnsible ∧
      (worldAnsible.fs "/etc/passwd/config").onDisk = false := by
  decide

/-- What the code guarantees when `upLocalFunc` reaches a strategy: the kubeconfig path in
effect is the one `mustKubeConfig` left, it is not empty, and `os.Stat` did not report it as not
existing. -/
theorem upLocalFunc_strategy_kubeConfig (flags : Flags) (w : World) (fl : Flags)
    (h : Event.upLocal fl ∈ upLocalFunc flags w ∨ Event.upLocalAnsible fl ∈ upLocalFunc flags w) :
    mustKubeConfig flags.kubeConfig w.usr w.fs = .ok fl.kubeConfig ∧
      fl.kubeConfig ≠ "" ∧ osStat (w.fs fl.kubeConfig) ≠ some .notExist := by
  unfold upLocalFunc at h
  cases hm : mustKubeConfig flags.kubeConfig w.usr w.fs with
  | fatal f => rw [hm] at h; simp at h
  | ok p =>
    have hp := mustKubeConfig_ok _ _ _ _ hm
    rw [hm] at h
    have hfl : fl.kubeConfig = p := by
      cases hk : w.operatorType with
      | go =>
        rw [hk] at h
        cases hr : w.inProjectRoot <;> rw [hr] at h <;> simp at h
        rw [h]
      | ansible =>
        rw [hk] at h
        simp at h
        rw [h]
      | other name => rw [hk] at h; simp at h
    rw [hfl]
    exact ⟨rfl, hp.1, hp.2.1⟩

/-- Instance: the default path in an Ansible project. -/
theorem upLocalFunc_strategy_kubeConfig_witness :
    mustKubeConfig "" worldAnsible.usr worldAnsible.fs = .ok "/home/u/.kube/config" ∧
      "/home/u/.kube/config" ≠ "" ∧
      osStat (worldAnsible.fs "/home/u/.kube/config") ≠ some .notExist :=
  upLocalFunc_strategy_kubeConfig flagsDefault worldAnsible
    { flagsDefault with kubeConfig := "/home/u/.kube/config" } (by decide)

/-! ## `upLocal`: arguments and environment -/

theorem upLocalArgs_eq (flags : Flags) (c : Consts) :
    upLocalArgs flags c =
      ["run"] ++ (if flags.ldFlags ≠ "" then ["-ldflags", flags.ldFlags] else []) ++
        [filepathJoin [c.ManagerDir, c.CmdFile]] ++
        (if flags.operatorFlags ≠ "" then stringsSplit flags.operatorFlags ' ' else []) := by
  unfold upLocalArgs
  by_cases h1 : flags.ldFlags = "" <;> by_cases h2 : flags.operatorFlags = "" <;> simp [h1, h2]

/-- C4: the arguments `upLocal` passes to `go` are `run`, then `-ldflags` and the linker flags
exactly when these are not empty, then the entry point, then, exactly when the operator flags are
not empty, their pieces between the space characters, in order and last; for
`--flag1 value1 --flag2=value2` these are the three tokens, for the empty string nothing follows
the entry point. -/
theorem upLocalCmd_args (flags : Flags) (c : Consts) (environ : List String) :
    (upLocalCmd flags c environ).name = "go" ∧
      (upLocalCmd flags c environ).args =
        ["run"] ++ (if flags.ldFlags ≠ "" then ["-ldflags", flags.ldFlags] else []) ++
          [filepathJoin [c.ManagerDir, c.CmdFile]] ++
          (if flags.operatorFlags ≠ "" then
            (flags.operatorFlags.data.splitOn ' ').map String.mk else []) ∧
      (upLocalCmd { flags with operatorFlags := "--flag1 value1 --flag2=value2" } c environ).args =
        ["run"] ++ (if flags.ldFlags ≠ "" then ["-ldflags", flags.ldFlags] else []) ++
          [filepathJoin [c.ManagerDir, c.CmdFile]] ++ ["--flag1", "value1", "--flag2=value2"] ∧
      (upLocalCmd { flags with operatorFlags := "" } c environ).args =
        ["run"] ++ (if flags.ldFlags ≠ "" then ["-ldflags", flags.ldFlags] else []) ++
          [filepathJoin [c.ManagerDir, c.CmdFile]] := by
  refine ⟨rfl, ?_, ?_, ?_⟩
  · show upLocalArgs flags c = _
    rw [upLocalArgs_eq, stringsSplit_eq_splitOn]
  · have hcmd : ∀ fl : Flags, (upLocalCmd fl c environ).args = upLocalArgs fl c := fun _ => rfl
    rw [hcmd, upLocalArgs_eq]
    have : stringsSplit "--flag1 value1 --flag2=value2" ' '
        = ["--flag1", "value1", "--flag2=value2"] := by decide
    simp [this]
  · have hcmd : ∀ fl : Flags, (upLocalCmd fl c environ).args = upLocalArgs fl c := fun _ => rfl
    rw [hcmd, upLocalArgs_eq]
    simp

/-- The field `dc.Env` when `dc.Run()` is called: the environment of the current process,
unchanged and in order, followed by exactly two entries, the kubeconfig variable and then the
watch-namespace variable, whatever the namespace is. -/
theorem upLocalCmd_env (flags : Flags) (c : Consts) (environ : List String) :
    (upLocalCmd flags c environ).env =
        environ ++ [c.KubeConfigEnvVar ++ "=" ++ flags.kubeConfig,
          c.WatchNamespaceEnvVar ++ "=" ++ flags.nameSpace] ∧
      (upLocalCmd flags c environ).env.take environ.length = environ ∧
      (upLocalCmd flags c environ).env.length = environ.length + 2 ∧
      (upLocalCmd { flags with nameSpace := "" } c environ).env.drop environ.length =
        [c.KubeConfigEnvVar ++ "=" ++ flags.kubeConfig, c.WatchNamespaceEnvVar ++ "="] := by
  have h : ∀ fl : Flags, (upLocalCmd fl c environ).env =
      environ ++ [c.KubeConfigEnvVar ++ "=" ++ fl.kubeConfig,
        c.WatchNamespaceEnvVar ++ "=" ++ fl.nameSpace] := by
    intro fl
    simp [upLocalCmd, sprintfKeyValue]
  refine ⟨h flags, ?_, ?_, ?_⟩
  · rw [h]; simp
  · rw [h]; simp
  · rw [h]; simp

/-- C10: for non-empty operator flags, the arguments after the entry point, joined with single
spaces, are the flags string again, and there is one more of them than there are spaces in it;
leading, trailing and doubled spaces come out as empty arguments. -/
theorem upLocalCmd_extra_args (flags : Flags) (c : Consts) (environ : List String)
    (h : flags.operatorFlags ≠ "") :
    (upLocalCmd flags c environ).args.take (entryPointEnd flags) =
        ["run"] ++ (if flags.ldFlags ≠ "" then ["-ldflags", flags.ldFlags] else []) ++
          [filepathJoin [c.ManagerDir, c.CmdFile]] ∧
      " ".intercalate ((upLocalCmd flags c environ).args.drop (entryPointEnd flags))
        = flags.operatorFlags ∧
      ((upLocalCmd flags c environ).args.drop (entryPointEnd flags)).length
        = flags.operatorFlags.data.count ' ' + 1 ∧
      (upLocalCmd { flags with operatorFlags := " a  b " } c environ).args.drop
          (entryPointEnd flags) = ["", "a", "", "b", ""] := by
  have hargs : ∀ fl : Flags, fl.ldFlags = flags.ldFlags → fl.operatorFlags ≠ "" →
      (upLocalCmd fl c environ).args.take (entryPointEnd flags) =
          ["run"] ++ (if flags.ldFlags ≠ "" then ["-ldflags", flags.ldFlags] else []) ++
            [filepathJoin [c.ManagerDir, c.CmdFile]] ∧
        (upLocalCmd fl c environ).args.drop (entryPointEnd flags)
          = stringsSplit fl.operatorFlags ' ' := by
    intro fl hld hof
    have : (upLocalCmd fl c environ).args = upLocalArgs fl c := rfl
    rw [this, upLocalArgs_eq, hld]
    unfold entryPointEnd
    by_cases h1 : flags.ldFlags = "" <;> simp [h1, hof]
  obtain ⟨h1, h2⟩ := hargs flags rfl h
  refine ⟨h1, ?_, ?_, ?_⟩
  · rw [h2]; exact intercalate_stringsSplit _
  · rw [h2, stringsSplit_eq_splitOn, List.length_map, length_splitOn_eq]
  · have hne : (" a  b " : String) ≠ "" := by decide
    have hsp : stringsSplit " a  b " ' ' = ["", "a", "", "b", ""] := by decide
    rw [(hargs { flags with operatorFlags := " a  b " } rfl hne).2]
    exact hsp

/-- Instance: flags with a trailing space. -/
theorem upLocalCmd_extra_args_witness :
    " ".intercalate ((upLocalCmd { flagsDefault with operatorFlags := "-v " } constsExample
        []).args.drop (entryPointEnd { flagsDefault with operatorFlags := "-v " })) = "-v " :=
  (upLocalCmd_extra_args { flagsDefault with operatorFlags := "-v " } constsExample []
    (by decide)).2.1

/-! ## The environment of the child -/

theorem dedupEnvLoop_err (rev saw out : List String) (err : Bool)
    (h : ∀ e ∈ rev, nul ∉ e.data) : (dedupEnvLoop rev saw out err).2 = err := by
  induction rev generalizing saw out with
  | nil => rfl
  | cons kv rest ih =>
    have hkv : nul ∉ kv.data := h kv (by simp)
    have hrest : ∀ e ∈ rest, nul ∉ e.data := fun e he => h e (by simp [he])
    unfold dedupEnvLoop
    simp only [hkv, if_false]
    split
    · split <;> exact ih _ _ hrest
    · split <;> exact ih _ _ hrest

theorem dedupEnvLoop_prepends (rev saw out : List String) (err : Bool) :
    ∃ pre, (dedupEnvLoop rev saw out err).1 = pre ++ out ∧ ∀ e ∈ pre, e ∈ rev := by
  induction rev generalizing saw out err with
  | nil => exact ⟨[], rfl, by simp⟩
  | cons kv rest ih =>
    have skip : ∀ saw err, ∃ pre, (dedupEnvLoop rest saw out err).1 = pre ++ out ∧
        ∀ e ∈ pre, e ∈ kv :: rest := by
      intro saw err
      obtain ⟨pre, h1, h2⟩ := ih saw out err
      exact ⟨pre, h1, fun e he => List.mem_cons_of_mem _ (h2 e he)⟩
    have keep : ∀ saw err, ∃ pre, (dedupEnvLoop rest saw (kv :: out) err).1 = pre ++ out ∧
        ∀ e ∈ pre, e ∈ kv :: rest := by
      intro saw err
      obtain ⟨pre, h1, h2⟩ := ih saw (kv :: out) err
      refine ⟨pre ++ [kv], by simp [h1], ?_⟩
      intro e he
      simp only [List.mem_append, List.mem_singleton] at he
      rcases he with he | he
      · exact List.mem_cons_of_mem _ (h2 e he)
      · simp [he]
    unfold dedupEnvLoop
    split
    · exact skip _ _
    · split
      · split
        · exact keep _ _
        · exact skip _ _
      · split
        · exact skip _ _
        · exact keep _ _

theorem dedupEnvLoop_distinct (rev saw out : List String) (err : Bool)
    (hgood : ∀ e ∈ rev, nul ∉ e.data ∧ e ≠ "")
    (hnodup : (rev.filterMap envKey).Nodup)
    (hsaw : ∀ e ∈ rev, ∀ k, envKey e = some k → k ∉ saw) :
    dedupEnvLoop rev saw out err = (rev.reverse ++ out, err) := by
  induction rev generalizing saw out with
  | nil => rfl
  | cons kv rest ih =>
    have hkv := hgood kv (by simp)
    have hrest : ∀ e ∈ rest, nul ∉ e.data ∧ e ≠ "" := fun e he => hgood e (by simp [he])
    unfold dedupEnvLoop
    simp only [hkv.1, if_false]
    cases hk : envKey kv with
    | none =>
      simp only [hkv.2, ne_eq, not_false_eq_true, if_true]
      have hn : (rest.filterMap envKey).Nodup := by
        simpa [List.filterMap_cons, hk] using hnodup
      rw [ih saw (kv :: out) hrest hn (fun e he k hek => hsaw e (by simp [he]) k hek)]
      simp
    | some k =>
      have hks : k ∉ saw := hsaw kv (by simp) k hk
      simp only [hks, if_false]
      have hn : k ∉ rest.filterMap envKey ∧ (rest.filterMap envKey).Nodup := by
        simpa [List.filterMap_cons, hk] using hnodup
      rw [ih (k :: saw) (kv :: out) hrest hn.2 ?_]
      · simp
      · intro e he k2 hek hmem
        simp only [List.mem_cons] at hmem
        rcases hmem with rfl | hmem
        · exact hn.1 (List.mem_filterMap.mpr ⟨e, he, hek⟩)
        · exact hsaw e (by simp [he]) k2 hek hmem

theorem dedupEnvLoop_append (a b saw out : List String) (err : Bool) :
    ∃ saw2 out2 err2, dedupEnvLoop (a ++ b) saw out err = dedupEnvLoop b saw2 out2 err2 ∧
      ∀ k ∈ saw2, k ∈ saw ∨ ∃ x ∈ a, envKey x = some k := by
  induction a generalizing saw out err with
  | nil => exact ⟨saw, out, err, rfl, fun k hk => Or.inl hk⟩
  | cons kv rest ih =>
    have same : ∀ out2 err2, ∃ saw3 out3 err3,
        dedupEnvLoop (rest ++ b) saw out2 err2 = dedupEnvLoop b saw3 out3 err3 ∧
          ∀ k ∈ saw3, k ∈ saw ∨ ∃ x ∈ kv :: rest, envKey x = some k := by
      intro out2 err2
      obtain ⟨saw3, out3, err3, h1, h2⟩ := ih saw out2 err2
      refine ⟨saw3, out3, err3, h1, ?_⟩
      intro k hk
      rcases h2 k hk with h | ⟨x, hx, hxk⟩
      · exact Or.inl h
      · exact Or.inr ⟨x, List.mem_cons_of_mem _ hx, hxk⟩
    rw [List.cons_append, dedupEnvLoop]
    split
    · exact same _ _
    · cases hk : envKey kv with
      | none =>
        simp only
        split
        · exact same _ _
        · exact same _ _
      | some k0 =>
        simp only
        split
        · exact same _ _
        · obtain ⟨saw3, out3, err3, h1, h2⟩ := ih (k0 :: saw) (kv :: out) err
          refine ⟨saw3, out3, err3, h1, ?_⟩
          intro k hk2
          rcases h2 k hk2 with h | ⟨x, hx, hxk⟩
          · simp only [List.mem_cons] at h
            rcases h with rfl | h
            · exact Or.inr ⟨kv, by simp, hk⟩
            · exact Or.inl h
          · exact Or.inr ⟨x, List.mem_cons_of_mem _ hx, hxk⟩

theorem dedupEnv_keeps (pre post : List String) (e : String) (hnul : nul ∉ e.data)
    (hne : e ≠ "") (hlast : envKey e = none ∨ ∀ x ∈ post, envKey x ≠ envKey e) :
    e ∈ (dedupEnv (pre ++ e :: post)).1 := by
  unfold dedupEnv
  have hrev : (pre ++ e :: post).reverse = post.reverse ++ e :: pre.reverse := by simp
  rw [hrev]
  obtain ⟨saw2, out2, err2, h1, h2⟩ := dedupEnvLoop_append post.reverse (e :: pre.reverse) [] []
    false
  rw [h1, dedupEnvLoop]
  simp only [hnul, if_false]
  cases hk : envKey e with
  | none =>
    simp only [hne, ne_eq, not_false_eq_true, if_true]
    obtain ⟨p, hp, _⟩ := dedupEnvLoop_prepends pre.reverse saw2 (e :: out2) err2
    rw [hp]
    simp
  | some k =>
    have hks : k ∉ saw2 := by
      intro hmem
      rcases h2 k hmem with h | ⟨x, hx, hxk⟩
      · simp at h
      · rcases hlast with h | h
        · rw [hk] at h; simp at h
        · exact h x (by simpa using hx) (by rw [hxk, hk])
    simp only [hks, if_false]
    obtain ⟨p, hp, _⟩ := dedupEnvLoop_prepends pre.reverse (k :: saw2) (e :: out2) err2
    rw [hp]
    simp

theorem stringsIndex_append_sep (a b : List Char) (sep : Char) :
    stringsIndex (a ++ sep :: b) sep ≠ none := by
  induction a with
  | nil => simp [stringsIndex]
  | cons c cs ih =>
    by_cases h : c = sep
    · simp [stringsIndex, h]
    · simp [stringsIndex, h, ih]

theorem envKey_sprintf (key value : String) : envKey (sprintfKeyValue key value) ≠ none := by
  have h : stringsIndex (sprintfKeyValue key value).data '=' ≠ none := by
    have : (sprintfKeyValue key value).data = key.data ++ '=' :: value.data := by
      simp [sprintfKeyValue]
    rw [this]
    exact stringsIndex_append_sep _ _ _
  unfold envKey
  cases hi : stringsIndex (sprintfKeyValue key value).data '=' with
  | none => exact absurd hi h
  | some i =>
    cases i with
    | zero => simp only; split <;> simp
    | succ j => simp

theorem upLocalCmd_env_eq (flags : Flags) (c : Consts) (environ : List String) :
    (upLocalCmd flags c environ).env =
      environ ++ [sprintfKeyValue c.KubeConfigEnvVar flags.kubeConfig,
        sprintfKeyValue c.WatchNamespaceEnvVar flags.nameSpace] := by
  simp [upLocalCmd]

/-- C5, as stated, fails: an inherited entry for the kubeconfig variable does not reach the
child. The field `dc.Env` holds it, and the entry `upLocal` adds for the same key replaces it
when `dc.Run()` starts the child, so the child gets fewer entries than the inherited ones plus
two. -/
theorem upLocal_child_env_drops_inherited :
    "KUBERNETES_CONFIG=/old/config" ∈ environWithKubeConfig ∧
      upLocalChildEnv { flagsDefault with kubeConfig := "/home/u/.kube/config" } constsSdk
          environWithKubeConfig
        = some ["PATH=/usr/bin", "KUBERNETES_CONFIG=/home/u/.kube/config",
            "WATCH_NAMESPACE=default"] ∧
      upLocalChildEnv { flagsDefault with kubeConfig := "/home/u/.kube/config" } constsSdk
          environWithKubeConfig
        ≠ some (environWithKubeConfig ++ ["KUBERNETES_CONFIG=/home/u/.kube/config",
            "WATCH_NAMESPACE=default"]) := by
  decide

/-- C5, amended: the field `dc.Env` is the environment of the current process, unchanged and in
order, followed by exactly the kubeconfig entry and then the watch-namespace entry, whatever the
namespace is. The child is started with `dc.Env` less the entries whose key comes again later:
it gets no entry that is not in `dc.Env`, it gets every entry of `dc.Env` whose key does not come
again later, so both added entries when their keys differ, and when no key occurs twice in
`dc.Env` it gets exactly the inherited entries followed by the two added ones. -/
theorem upLocal_child_env (flags : Flags) (c : Consts) (environ : List String)
    (hnul : ∀ e ∈ (upLocalCmd flags c environ).env, nul ∉ e.data) :
    (upLocalCmd flags c environ).env =
        environ ++ [c.KubeConfigEnvVar ++ "=" ++ flags.kubeConfig,
          c.WatchNamespaceEnvVar ++ "=" ++ flags.nameSpace] ∧
      (∃ env, upLocalChildEnv flags c environ = some env ∧
        (∀ e ∈ env, e ∈ (upLocalCmd flags c environ).env) ∧
        (∀ pre e post, (upLocalCmd flags c environ).env = pre ++ e :: post → e ≠ "" →
          (envKey e = none ∨ ∀ x ∈ post, envKey x ≠ envKey e) → e ∈ env) ∧
        (envKey (c.KubeConfigEnvVar ++ "=" ++ flags.kubeConfig)
            ≠ envKey (c.WatchNamespaceEnvVar ++ "=" ++ flags.nameSpace) →
          c.KubeConfigEnvVar ++ "=" ++ flags.kubeConfig ∈ env ∧
            c.WatchNamespaceEnvVar ++ "=" ++ flags.nameSpace ∈ env)) ∧
      ((∀ e ∈ environ, e ≠ "") →
        (((upLocalCmd flags c environ).env).filterMap envKey).Nodup →
        upLocalChildEnv flags c environ =
          some (environ ++ [c.KubeConfigEnvVar ++ "=" ++ flags.kubeConfig,
            c.WatchNamespaceEnvVar ++ "=" ++ flags.nameSpace])) := by
  have henv := upLocalCmd_env_eq flags c environ
  have herr : (dedupEnv (upLocalCmd flags c environ).env).2 = false :=
    dedupEnvLoop_err _ _ _ _ (fun e he => hnul e (by simpa using he))
  have hchild : upLocalChildEnv flags c environ
      = some (dedupEnv (upLocalCmd flags c environ).env).1 := by
    simp [upLocalChildEnv, cmdEnviron, herr]
  refine ⟨henv, ⟨_, hchild, ?_, ?_, ?_⟩, ?_⟩
  · intro e he
    obtain ⟨pre, h1, h2⟩ := dedupEnvLoop_prepends (upLocalCmd flags c environ).env.reverse [] []
      false
    have : e ∈ pre := by
      unfold dedupEnv at he
      rw [h1] at he
      simpa using he
    simpa using h2 e this
  · intro pre e post hsplit hne hlast
    have hn : nul ∉ e.data := hnul e (by rw [hsplit]; simp)
    rw [hsplit]
    exact dedupEnv_keeps pre post e hn hne hlast
  · intro hkeys
    have hk := envKey_sprintf c.KubeConfigEnvVar flags.kubeConfig
    have hw := envKey_sprintf c.WatchNamespaceEnvVar flags.nameSpace
    have hnk : nul ∉ (sprintfKeyValue c.KubeConfigEnvVar flags.kubeConfig).data :=
      hnul _ (by simp [henv])
    have hnw : nul ∉ (sprintfKeyValue c.WatchNamespaceEnvVar flags.nameSpace).data :=
      hnul _ (by simp [henv])
    have hkeys2 : envKey (sprintfKeyValue c.KubeConfigEnvVar flags.kubeConfig)
        ≠ envKey (sprintfKeyValue c.WatchNamespaceEnvVar flags.nameSpace) := hkeys
    cases hk1 : envKey (sprintfKeyValue c.KubeConfigEnvVar flags.kubeConfig) with
    | none => exact absurd hk1 hk
    | some k1 =>
      cases hk2 : envKey (sprintfKeyValue c.WatchNamespaceEnvVar flags.nameSpace) with
      | none => exact absurd hk2 hw
      | some k2 =>
        have hne : k1 ≠ k2 := by
          intro h
          apply hkeys2
          rw [hk1, hk2, h]
        obtain ⟨pre, h1, _⟩ := dedupEnvLoop_prepends environ.reverse [k1, k2]
          [sprintfKeyValue c.KubeConfigEnvVar flags.kubeConfig,
            sprintfKeyValue c.WatchNamespaceEnvVar flags.nameSpace] false
        have hshape : (dedupEnv (upLocalCmd flags c environ).env).1
            = pre ++ [sprintfKeyValue c.KubeConfigEnvVar flags.kubeConfig,
                sprintfKeyValue c.WatchNamespaceEnvVar flags.nameSpace] := by
          unfold dedupEnv
          rw [henv]
          simp only [List.reverse_append, List.reverse_cons, List.reverse_nil, List.nil_append,
            List.singleton_append, List.cons_append]
          rw [dedupEnvLoop]
          simp only [hnw, if_false, hk2, List.not_mem_nil]
          rw [dedupEnvLoop]
          simp only [hnk, if_false, hk1, List.mem_singleton, hne]
          exact h1
        rw [hshape]
        constructor
        · show sprintfKeyValue _ _ ∈ _
          simp
        · show sprintfKeyValue _ _ ∈ _
          simp
  · intro hne hnodup
    rw [hchild]
    have hgood : ∀ e ∈ (upLocalCmd flags c environ).env.reverse, nul ∉ e.data ∧ e ≠ "" := by
      intro e he
      have he2 : e ∈ (upLocalCmd flags c environ).env := by simpa using he
      refine ⟨hnul e he2, ?_⟩
      rw [henv] at he2
      simp only [List.mem_append, List.mem_cons, List.mem_singleton, List.not_mem_nil,
        or_false] at he2
      rcases he2 with he2 | rfl | rfl
      · exact hne e he2
      · intro h0
        have := envKey_sprintf c.KubeConfigEnvVar flags.kubeConfig
        rw [h0] at this
        exact this (by decide)
      · intro h0
        have := envKey_sprintf c.WatchNamespaceEnvVar flags.nameSpace
        rw [h0] at this
        exact this (by decide)
    have hnd : ((upLocalCmd flags c environ).env.reverse.filterMap envKey).Nodup := by
      rw [List.filterMap_reverse]
      exact List.nodup_reverse.mpr hnodup
    have := dedupEnvLoop_distinct (upLocalCmd flags c environ).env.reverse [] [] false hgood hnd
      (fun _ _ _ _ h => by simp at h)
    unfold dedupEnv
    rw [this]
    simp only [List.reverse_reverse, List.append_nil]
    rw [henv]
    rfl

/-- Instance: an inherited environment that sets neither variable reaches the child whole. -/
theorem upLocal_child_env_witness :
    upLocalChildEnv { flagsDefault with kubeConfig := "/home/u/.kube/config" } constsSdk
        environPlain
      = some ["PATH=/usr/bin", "HOME=/home/u", "KUBERNETES_CONFIG=/home/u/.kube/config",
          "WATCH_NAMESPACE=default"] :=
  (upLocal_child_env { flagsDefault with kubeConfig := "/home/u/.kube/config" } constsSdk
    environPlain (by decide)).2.2 (by decide) (by decide)

/-! ## `upLocalAnsible` -/

/-- C6: when `proxy.Run` returns an error the reconciliation loop is not started and the run
ends fatally (with the proxy's error when `proxy.Run` was reached); and when the loop is started,
the configuration, the manager and the proxy have all succeeded, and `manager.New` and
`proxy.Run` come before the start of the loop in the run. -/
theorem upLocalAnsible_proxy_gate (flags : Flags) (c : Consts) (w : AnsibleWorld) :
    (w.proxyRun ≠ none →
        (∀ e ∈ upLocalAnsible flags c w, e.isOperatorRun = false) ∧
          ∃ f, ansibleOutcome (upLocalAnsible flags c w) = some (.fatal f)) ∧
      (∀ err, w.getConfigOk = true → w.managerNew = none → w.proxyRun = some err →
        ansibleOutcome (upLocalAnsible flags c w) = some (.fatal (.proxyStart err))) ∧
      ((∃ e ∈ upLocalAnsible flags c w, e.isOperatorRun = true) →
        w.getConfigOk = true ∧ w.managerNew = none ∧ w.proxyRun = none ∧
          (upLocalAnsible flags c w).take 9 = ansibleStartup flags c) := by
  obtain ⟨ok, mgr, prx, del⟩ := w
  cases ok <;> cases mgr <;> cases prx <;>
    simp [upLocalAnsible, ansibleOutcome, AnsibleEvent.isOperatorRun, ansibleStartup]

/-- Instance: the port of the proxy is taken. -/
theorem upLocalAnsible_proxy_gate_witness :
    ansibleOutcome (upLocalAnsible flagsDefault constsExample
        { getConfigOk := true, managerNew := none, proxyRun := some "address already in use",
          delivered := [none] })
      = some (.fatal (.proxyStart "address already in use")) :=
  (upLocalAnsible_proxy_gate flagsDefault constsExample
    { getConfigOk := true, managerNew := none, proxyRun := some "address already in use",
      delivered := [none] }).2.1 _ rfl rfl rfl

/-- C7: once both subsystems are started, the run and its outcome depend on the first value
delivered on `done` only: `nil` gives the clean `Exiting.` end, an error gives the fatal end with
that error, whatever is delivered after it. -/
theorem upLocalAnsible_first_delivery (flags : Flags) (c : Consts) (v : Option GoError)
    (rest : List (Option GoError)) :
    upLocalAnsible flags c
        { getConfigOk := true, managerNew := none, proxyRun := none, delivered := v :: rest }
      = upLocalAnsible flags c
        { getConfigOk := true, managerNew := none, proxyRun := none, delivered := [v] } ∧
    ansibleOutcome (upLocalAnsible flags c
        { getConfigOk := true, managerNew := none, proxyRun := none, delivered := v :: rest })
      = some (match v with
              | none => .exiting
              | some err => .fatal (.done err)) := by
  cases v <;> simp [upLocalAnsible, ansibleOutcome]

/-! ## `upLocal`: signals -/

/-- C8 fails on the code. A signal arrives while the child is running and the handler is blocked
in `<-c`; `Kill` succeeds and the child is ended, but the main goroutine, whose `dc.Run()` now
returns the error of the killed child, reaches its fatal report of line 134 before the handler
reaches `os.Exit(0)`: the orchestrator ends with that fatal report and not with status 0. And
when the signal arrives while the child is running but the handler goroutine has not reached
`<-c` yet, the signal is dropped and the child is not killed at all. -/
theorem upLocal_wait_path_reports_first :
    stateChildRunning.exit = none ∧ stateChildRunning.child = .running ∧
      stateChildRunning.handler = .receiving ∧
      (run stateChildRunning [.signal, .handler none]).handler = .checkErr none ∧
      (run stateChildRunning [.signal, .handler none]).child = .ended (some killedErr) ∧
      (run stateChildRunning [.signal, .handler none, .main none, .main none]).exit
        = some (.fatal (.runLocally killedErr)) ∧
      stateHandlerNotReady.exit = none ∧ stateHandlerNotReady.child = .running ∧
      stateHandlerNotReady.handler = .spawned ∧
      run stateHandlerNotReady [.signal] = stateHandlerNotReady ∧
      (run stateHandlerNotReady [.signal, .handler none, .handler none]).child = .running := by
  decide

/-- C9 fails on the code: the handler is started at line 120, the child only at line 132. A
signal that arrives in between is received, and the handler calls `Kill` on a nil `dc.Process`. -/
theorem upLocal_handler_kills_unstarted_child :
    stateBeforeRun.notified = true ∧ stateBeforeRun.handler = .receiving ∧
      (run stateBeforeRun [.signal]).exit = none ∧
      (run stateBeforeRun [.signal]).handler = .kill ∧
      (run stateBeforeRun [.signal]).processSet = false ∧
      (run stateBeforeRun [.signal]).child = .notStarted ∧
      (run stateBeforeRun [.signal, .handler none]).exit = some .nilProcess := by
  decide

end UpLocal
